import Mathlib

/-!
Verification of the yDrink period/metrics pipeline.

Source files embedded here:
  * `ydrink_periods.py` — Saturday-anchored rolling bi-weekly windows;
  * `ydrink_transform_metrics.py` — snapshot normalization, latest-per-brand
    selection, and the share/True-Difference metrics computation.

Modelling conventions:
  * Python `datetime.date` values are modelled by their proleptic Gregorian
    ordinal (`date.toordinal`) as an integer; `timedelta(days=k)` arithmetic
    is integer arithmetic on ordinals.  Ordinal 1 (0001-01-01) is a Monday,
    so `date.weekday()` (Monday=0 … Sunday=6) is `(ordinal - 1) % 7`; both
    Python's `%` on ints and Lean's `%` on `Int` are Euclidean for a positive
    modulus, so they agree.
  * Numeric columns are modelled as exact rationals `ℚ`.
  * pandas `Series` operations used by the code are elementwise; they are
    modelled at the element level, with missing values (`pd.NA`) as `Option`.
  * Python `str.split(sep)` (for the nonempty separators `"__"` and `"_to_"`
    used by the code) is modelled by `pySplit`, defined by direct recursion
    over the character list so that it evaluates in the kernel; Python's
    substring test `sep in s` is `pyContains`, via the fact that for a
    nonempty separator `sep in s` holds exactly when `s.split(sep)` has at
    least two components.
  * Python exceptions are modelled with `Except String`, the message being
    the exception's message.
-/

/-! ## Period calculator (`ydrink_periods.py`) -/

/-- Python `date.weekday()` on an ordinal: Monday = 0 … Sunday = 6,
Saturday = 5. -/
def pyWeekday (d : ℤ) : ℤ := (d - 1) % 7

/-- `most_recent_saturday(d)`: `days_since_sat = (d.weekday() - 5) % 7`;
returns `d - timedelta(days=days_since_sat)`. -/
def most_recent_saturday (d : ℤ) : ℤ := d - (pyWeekday d - 5) % 7

/-- `BiWeeklyPeriod` from `ydrink_periods.py`.  The source field `end` is a
reserved word in Lean and is rendered `end_`.  The `label` field is the string
`"<start ISO>_to_<end ISO>"`; ISO calendar rendering of an ordinal is not used
by any claim and is not modelled. -/
structure BiWeeklyPeriod where
  start : ℤ
  end_ : ℤ
deriving DecidableEq

/-- `current_biweekly_period(now)`: after resolving `now` to a date `today`
in America/Chicago, sets `end = most_recent_saturday(today)` and
`start = end - timedelta(days=13)`.  The timezone resolution only selects the
reference date, so the model takes the resolved date directly. -/
def current_biweekly_period (today : ℤ) : BiWeeklyPeriod :=
  let e := most_recent_saturday today
  { start := e - 13, end_ := e }

/-- `last_biweekly_period(current)`: `end = current.end - timedelta(days=14)`,
`start = end - timedelta(days=13)`. -/
def last_biweekly_period (current : BiWeeklyPeriod) : BiWeeklyPeriod :=
  let e := current.end_ - 14
  { start := e - 13, end_ := e }

/-- The periods the period calculator can produce: a current period from some
reference date, or the predecessor of a produced period. -/
inductive ProducedPeriod : BiWeeklyPeriod → Prop
  | current (today : ℤ) : ProducedPeriod (current_biweekly_period today)
  | prev (p : BiWeeklyPeriod) : ProducedPeriod p →
      ProducedPeriod (last_biweekly_period p)

/-! ## String helpers: Python `str.split` / `in` / `str.lower` -/

/-- If `sep` is a prefix of `s`, the remainder of `s` after it; otherwise
`none`. -/
def isPrefixThenDrop : List Char → List Char → Option (List Char)
  | [], s => some s
  | _ :: _, [] => none
  | a :: as, b :: bs => if a = b then isPrefixThenDrop as bs else none

/-- Worker for `pySplit`: scans left to right, cutting at each leftmost
non-overlapping occurrence of `sep`, exactly as Python `str.split` does.
`fuel` starts at the length of the scanned list, which suffices for a
nonempty separator (each step consumes at least one character). -/
def pySplitGo (sep : List Char) : Nat → List Char → List Char → List (List Char)
  | _, acc, [] => [acc.reverse]
  | 0, acc, rest => [acc.reverse ++ rest]
  | fuel + 1, acc, c :: cs =>
    match isPrefixThenDrop sep (c :: cs) with
    | some rest => acc.reverse :: pySplitGo sep fuel [] rest
    | none => pySplitGo sep fuel (c :: acc) cs

/-- Python `s.split(sep)` for a nonempty separator. -/
def pySplit (s sep : String) : List String :=
  (pySplitGo sep.data s.data.length [] s.data).map String.mk

/-- Python `sub in s` for a nonempty `sub`: the split by `sub` has at least
two components. -/
def pyContains (sub s : String) : Bool :=
  decide (2 ≤ (pySplit s sub).length)

/-- Python `s.lower()` (character-wise lowering suffices for the ASCII
filenames involved). -/
def pyLower (s : String) : String := String.mk (s.data.map Char.toLower)

/-! ## `safe_div` (`ydrink_transform_metrics.py`) -/

/-- Elementwise model of `denom.replace({0: pd.NA})`. -/
def seriesReplaceZeroNA (d : ℚ) : Option ℚ :=
  if d = 0 then none else some d

/-- `safe_div(numer, denom)`: replace zero denominators by `pd.NA`, divide
(elementwise; division by `NA` yields `NA`), then `fillna(0.0)`. -/
def safe_div (n d : ℚ) : ℚ :=
  ((seriesReplaceZeroNA d).map (fun x => n / x)).getD 0

/-! ## `compute_metrics` (`ydrink_transform_metrics.py`) -/

/-- One row of the raw fact table handed to `compute_metrics`, with the
columns of `REQUIRED_COLS`.  The four metric columns have been coerced to
numbers by `load_raw_snapshots` (`pd.to_numeric(...).fillna(0.0)`); the
remaining columns are carried as strings. -/
structure RawRow where
  account_id : String
  account_name : String
  sgws_region : String
  brand : String
  brand_cases : ℚ
  category_cases : ℚ
  brand_cases_lp : ℚ
  category_cases_lp : ℚ
  period_start : String
  period_end : String
  period_label : String
  pull_strategy : String
  run_timestamp : String
deriving DecidableEq

/-- One row of the `compute_metrics` output: the input row (`df = raw.copy()`
keeps every original column unchanged) extended with the derived columns, in
the order the source assigns them. -/
structure MetricsRow where
  orig : RawRow
  share_of_category : ℚ
  share_of_category_lp : ℚ
  delta_brand_cases : ℚ
  delta_category_cases : ℚ
  delta_share : ℚ
  expected_cases_if_maintained_share : ℚ
  share_gain_cases : ℚ
  true_difference_cases : ℚ
  true_up_cases : ℚ
  true_down_cases : ℚ
  category_effect_cases : ℚ
  unique_key : String
  is_current_period : Bool
  is_last_period : Bool
  baseline_brand_cases : Option ℚ
  baseline_category_cases : Option ℚ
  expected_share : Option ℚ
  expected_cases : Option ℚ
  gap_cases : Option ℚ
  gap_cases_positive : Option ℚ
deriving DecidableEq

/-- The per-row computation of `compute_metrics`, following the source
assignment by assignment.  `Series.clip(lower=0)` is `max · 0` and
`Series.clip(upper=0)` is `min · 0`; `astype(str)` on the already-string key
components is the identity; the six baseline/opportunity placeholders are
assigned `pd.NA`. -/
def computeRow (r : RawRow) : MetricsRow :=
  let share_of_category := safe_div r.brand_cases r.category_cases
  let share_of_category_lp := safe_div r.brand_cases_lp r.category_cases_lp
  let expected_cases_if_maintained_share := r.category_cases * share_of_category_lp
  let share_gain_cases := r.brand_cases - expected_cases_if_maintained_share
  let true_difference_cases := share_gain_cases
  { orig := r
    share_of_category := share_of_category
    share_of_category_lp := share_of_category_lp
    delta_brand_cases := r.brand_cases - r.brand_cases_lp
    delta_category_cases := r.category_cases - r.category_cases_lp
    delta_share := share_of_category - share_of_category_lp
    expected_cases_if_maintained_share := expected_cases_if_maintained_share
    share_gain_cases := share_gain_cases
    true_difference_cases := true_difference_cases
    true_up_cases := max true_difference_cases 0
    true_down_cases := min true_difference_cases 0
    category_effect_cases := expected_cases_if_maintained_share - r.brand_cases_lp
    unique_key := r.account_id ++ "|" ++ r.brand ++ "|" ++ r.period_end
    is_current_period := true
    is_last_period := false
    baseline_brand_cases := none
    baseline_category_cases := none
    expected_share := none
    expected_cases := none
    gap_cases := none
    gap_cases_positive := none }

/-- `compute_metrics(raw)`: a pure per-row map over the fact table — every
derived column is an elementwise `Series` expression, and no row is filtered
or reordered. -/
def compute_metrics (raw : List RawRow) : List MetricsRow :=
  raw.map computeRow

/-- A raw row with the given key triple and metric values; the lineage-only
string columns are empty. -/
def mkRow (acc brand pe : String) (bc cc bl cl : ℚ) : RawRow :=
  { account_id := acc, account_name := "", sgws_region := "", brand := brand
    brand_cases := bc, category_cases := cc, brand_cases_lp := bl
    category_cases_lp := cl, period_start := "", period_end := pe
    period_label := "", pull_strategy := "", run_timestamp := "" }

/-- The Scenario B row of the spec: `brand_cases=120, category_cases=400,
brand_cases_lp=100, category_cases_lp=500`. -/
def scenarioRow : RawRow :=
  mkRow "A1" "brandx" "2024-03-16" 120 400 100 500

/-- A string not containing the pipe delimiter of `unique_key`. -/
abbrev pipeFree (s : String) : Prop := '|' ∉ s.data

/-- A key-collision row: its `account_id` itself contains the delimiter. -/
def pipeRow1 : RawRow := mkRow "a|b" "c" "d" 0 0 0 0

/-- A second key-collision row with a different key triple. -/
def pipeRow2 : RawRow := mkRow "a" "b|c" "d" 0 0 0 0

/-! ## `load_raw_snapshots` (`ydrink_transform_metrics.py`)

The loader is modelled on the fields the period-label logic touches: each
input file is a pair of its filename stem and its list of data rows, the row
content being an arbitrary payload type `α` (the column-synonym renaming and
metric-column checks act on the payload and are independent of the period
fields). -/

/-- A normalized row as produced inside `load_raw_snapshots`: the payload
plus the `brand`, `period_label` and (possibly missing) `period_end` columns
attached from the file's identity. -/
structure NormRow (α : Type) where
  payload : α
  brand : String
  period_label : String
  period_end : Option String
deriving DecidableEq

/-- The `period_end` inference: `if "_to_" in period_label: period_end =
period_label.split("_to_")[1]`, else `None`.  For a nonempty separator the
split has at least two components exactly when the separator occurs, so the
guard and the index-1 access fuse into one match. -/
def inferPeriodEnd (label : String) : Option String :=
  match pySplit label "_to_" with
  | _ :: second :: _ => some second
  | _ => none

/-- Filename-stem parsing of `load_raw_snapshots`: `parts = p.stem.split("__")`,
requiring at least four parts with the first starting (case-insensitively)
with `establishmentdata`; yields `(brand, period_label) = (parts[1], parts[2])`
or the `ValueError` for an unexpected filename format. -/
def parseStemBP (stem : String) : Except String (String × String) :=
  let parts := pySplit stem "__"
  if 4 ≤ parts.length ∧
      List.isPrefixOf "establishmentdata".data (pyLower (parts.getD 0 "")).data then
    Except.ok (parts.getD 1 "", parts.getD 2 "")
  else
    Except.error ("Unexpected raw snapshot filename format: " ++ stem ++
      ". Expected \x27establishmentdata__<brand>__<period_label>__run_<ts>.csv\x27")

/-- The per-file loop of `load_raw_snapshots`: normalize each file in order
(first failure aborts), concatenating the frames (`pd.concat`). -/
def loadFrames {α : Type} : List (String × List α) → Except String (List (NormRow α))
  | [] => Except.ok []
  | (stem, rows) :: rest =>
    match parseStemBP stem with
    | Except.error e => Except.error e
    | Except.ok (b, lab) =>
      match loadFrames rest with
      | Except.error e => Except.error e
      | Except.ok tl =>
        Except.ok ((rows.map fun a =>
          { payload := a, brand := b, period_label := lab,
            period_end := inferPeriodEnd lab } : List (NormRow α)) ++ tl)

/-- The message of the `ValueError` raised when `period_end` could not be
inferred for some rows. -/
def missingMsg (n : Nat) : String :=
  toString n ++
    " rows are missing period_end (could not infer from filename). " ++
    "Either ensure filenames contain \x27<start>_to_<end>\x27 or set period_end from CLI."

/-- `load_raw_snapshots(paths)`: rejects an empty path list, loads and
concatenates the per-file frames, then fails if any row of the combined frame
is missing `period_end`. -/
def load_raw_snapshots {α : Type} (files : List (String × List α)) :
    Except String (List (NormRow α)) :=
  if files.isEmpty then Except.error "No raw snapshot paths provided."
  else
    match loadFrames files with
    | Except.error e => Except.error e
    | Except.ok raw =>
      if (raw.filter fun r => r.period_end.isNone).length ≠ 0 then
        Except.error (missingMsg (raw.filter fun r => r.period_end.isNone).length)
      else Except.ok raw

instance {ε α : Type} [DecidableEq ε] [DecidableEq α] : DecidableEq (Except ε α)
  | Except.error e₁, Except.error e₂ =>
    if h : e₁ = e₂ then Decidable.isTrue (by rw [h])
    else Decidable.isFalse (by intro hc; cases hc; exact h rfl)
  | Except.error _, Except.ok _ => Decidable.isFalse (by intro hc; cases hc)
  | Except.ok _, Except.error _ => Decidable.isFalse (by intro hc; cases hc)
  | Except.ok a₁, Except.ok a₂ =>
    if h : a₁ = a₂ then Decidable.isTrue (by rw [h])
    else Decidable.isFalse (by intro hc; cases hc; exact h rfl)

/-- A one-row snapshot whose period label lacks the `_to_` separator. -/
def badFile : String × List Unit :=
  ("establishmentdata__brandx__badlabel__run_20240101_000000", [()])

/-- A second bad-label one-row snapshot with a different brand and label. -/
def badFile2 : String × List Unit :=
  ("establishmentdata__brandy__otherbad__run_20240202_000000", [()])

/-- A zero-row snapshot whose period label lacks the `_to_` separator. -/
def emptyBadFile : String × List Unit :=
  ("establishmentdata__brandx__badlabel__run_20240101_000000", [])

/-! ## Latest-per-brand snapshot selection (`main` of
`ydrink_transform_metrics.py`)

`main` globs the candidate files for the target period end and, in the
default mode, keeps one file per brand in a dict keyed by brand, replacing
the kept file when a later candidate has a strictly greater `st_mtime`.
The dict is modelled as a function `String → Option Candidate`. -/

/-- A candidate snapshot file: its filename and its `st_mtime`. -/
structure Candidate where
  name : String
  mtime : ℚ
deriving DecidableEq

/-- `parts[1]` of `p.name.split("__")` — the brand slug of a candidate. -/
def candBrand (p : Candidate) : String := (pySplit p.name "__").getD 1 ""

/-- One iteration of the latest-per-brand loop: skip a name with fewer than
four `__`-separated parts, otherwise insert the file, replacing an existing
entry for the same brand only on strictly greater `st_mtime`. -/
def latestStep (m : String → Option Candidate) (p : Candidate) :
    String → Option Candidate :=
  if (pySplit p.name "__").length < 4 then m
  else fun x =>
    if x = candBrand p then
      match m (candBrand p) with
      | none => some p
      | some q => if q.mtime < p.mtime then some p else some q
    else m x

/-- The full latest-per-brand pass over the sorted candidate list. -/
def latest_by_brand (cs : List Candidate) : String → Option Candidate :=
  cs.foldl latestStep fun _ => none

/-- The per-brand kernel of `latestStep`: combine an optional kept file with
one more candidate of the same brand. -/
def pick (o : Option Candidate) (p : Candidate) : Option Candidate :=
  match o with
  | none => some p
  | some q => if q.mtime < p.mtime then some p else some q

/-- The candidates contributing to brand `b`: well-formed name (at least four
parts) and brand slug `b`. -/
def relevantCands (cs : List Candidate) (b : String) : List Candidate :=
  cs.filter fun p =>
    decide (4 ≤ (pySplit p.name "__").length) && (candBrand p == b)

/-- Scenario D, older capture of `brandx`. -/
def candOld : Candidate :=
  { name := "establishmentdata__brandx__2024-03-03_to_2024-03-16__run_20240301_000000.csv"
    mtime := 100 }

/-- Scenario D, newer capture of `brandx`. -/
def candNew : Candidate :=
  { name := "establishmentdata__brandx__2024-03-03_to_2024-03-16__run_20240302_000000.csv"
    mtime := 200 }

/-! ## Helper lemmas -/

/-- Splitting a pipe-separated concatenation: if the separator occurs in
neither left part, equal concatenations have equal parts. -/
theorem sep_cons_append_inj {c : Char} :
    ∀ (a₁ a₂ r₁ r₂ : List Char), c ∉ a₁ → c ∉ a₂ →
      a₁ ++ c :: r₁ = a₂ ++ c :: r₂ → a₁ = a₂ ∧ r₁ = r₂ := by
  intro a₁
  induction a₁ with
  | nil =>
    intro a₂ r₁ r₂ _ h₂ h
    cases a₂ with
    | nil =>
      simp only [List.nil_append, List.cons.injEq] at h
      exact ⟨rfl, h.2⟩
    | cons y ys =>
      simp only [List.nil_append, List.cons_append, List.cons.injEq] at h
      exact absurd (show c ∈ y :: ys by
        rw [h.1]; exact List.mem_cons_self y ys) h₂
  | cons x xs ih =>
    intro a₂ r₁ r₂ h₁ h₂ h
    cases a₂ with
    | nil =>
      simp only [List.cons_append, List.nil_append, List.cons.injEq] at h
      exact absurd (show c ∈ x :: xs by
        rw [h.1]; exact List.mem_cons_self c xs) h₁
    | cons y ys =>
      simp only [List.cons_append, List.cons.injEq] at h
      obtain ⟨hxy, htail⟩ := h
      have hx : c ∉ xs := fun hc => h₁ (List.mem_cons_of_mem x hc)
      have hy : c ∉ ys := fun hc => h₂ (List.mem_cons_of_mem y hc)
      obtain ⟨he, hr⟩ := ih ys r₁ r₂ hx hy htail
      exact ⟨by rw [hxy, he], hr⟩

/-- The character data of a `unique_key` concatenation. -/
theorem unique_key_data (a b c : String) :
    (a ++ "|" ++ b ++ "|" ++ c).data = a.data ++ '|' :: (b.data ++ '|' :: c.data) := by
  simp [String.data_append]

/-- Rows of a successfully parsed file appear in the frame concatenation
built by `loadFrames`, carrying the inferred `period_end` of its label. -/
theorem loadFrames_ok_mem {α : Type} :
    ∀ (files : List (String × List α)) (raw : List (NormRow α)),
      loadFrames files = Except.ok raw →
      ∀ f ∈ files, ∀ b lab, parseStemBP f.1 = Except.ok (b, lab) →
      ∀ a ∈ f.2,
        ({ payload := a, brand := b, period_label := lab,
           period_end := inferPeriodEnd lab } : NormRow α) ∈ raw := by
  intro files
  induction files with
  | nil =>
    intro raw _ f hf
    simp at hf
  | cons g rest ih =>
    intro raw h f hf b lab hparse a ha
    obtain ⟨stem, rows⟩ := g
    simp only [loadFrames] at h
    cases hps : parseStemBP stem with
    | error e => rw [hps] at h; cases h
    | ok bl =>
      obtain ⟨b0, lab0⟩ := bl
      rw [hps] at h
      cases hrest : loadFrames rest with
      | error e => rw [hrest] at h; cases h
      | ok tl =>
        rw [hrest] at h
        cases h
        rcases List.mem_cons.mp hf with hf1 | hf2
        · subst hf1
          have hbl : b0 = b ∧ lab0 = lab := by
            rw [hparse] at hps
            cases hps
            exact ⟨rfl, rfl⟩
          obtain ⟨hb0, hlab0⟩ := hbl
          subst hb0; subst hlab0
          exact List.mem_append_left _ (List.mem_map.mpr ⟨a, ha, rfl⟩)
        · exact List.mem_append_right _ (ih tl hrest f hf2 b lab hparse a ha)

/-- Pointwise value of one `latestStep` iteration. -/
theorem latestStep_eval (m : String → Option Candidate) (p : Candidate)
    (b : String) :
    latestStep m p b =
      if 4 ≤ (pySplit p.name "__").length ∧ candBrand p = b
      then pick (m b) p else m b := by
  by_cases h4 : (pySplit p.name "__").length < 4
  · have h4' : ¬ 4 ≤ (pySplit p.name "__").length := not_le.mpr h4
    simp [latestStep, pick, h4, h4']
  · have h4' : 4 ≤ (pySplit p.name "__").length := not_lt.mp h4
    by_cases hb : b = candBrand p
    · subst hb
      simp [latestStep, pick, h4, h4']
    · have hb' : ¬ candBrand p = b := fun hc => hb hc.symm
      simp [latestStep, pick, h4, h4', hb, hb']

/-- The latest-per-brand fold, observed at one brand, is the `pick` fold over
that brand's relevant candidates. -/
theorem foldl_latestStep (cs : List Candidate) :
    ∀ (m : String → Option Candidate) (b : String),
      (cs.foldl latestStep m) b = (relevantCands cs b).foldl pick (m b) := by
  induction cs with
  | nil => intro m b; simp [relevantCands]
  | cons p cs ih =>
    intro m b
    simp only [List.foldl_cons, relevantCands, List.filter_cons]
    by_cases hc : 4 ≤ (pySplit p.name "__").length ∧ candBrand p = b
    · have hbool : (decide (4 ≤ (pySplit p.name "__").length) &&
          (candBrand p == b)) = true := by
        simp [hc.1, hc.2]
      rw [hbool]
      simp only [List.foldl_cons]
      rw [ih (latestStep m p) b, latestStep_eval m p b, if_pos hc]
      rfl
    · have hbool : (decide (4 ≤ (pySplit p.name "__").length) &&
          (candBrand p == b)) = false := by
        rcases Decidable.not_and_iff_or_not.mp hc with h | h <;> simp [h]
      rw [hbool]
      rw [ih (latestStep m p) b, latestStep_eval m p b, if_neg hc]
      rfl

/-- The `pick` fold from a kept file yields a file drawn from the kept file
and the list, whose `st_mtime` dominates all of them. -/
theorem foldl_pick_some (l : List Candidate) :
    ∀ q : Candidate, ∃ f, l.foldl pick (some q) = some f ∧
      (f = q ∨ f ∈ l) ∧ q.mtime ≤ f.mtime ∧ ∀ g ∈ l, g.mtime ≤ f.mtime := by
  induction l with
  | nil =>
    intro q
    exact ⟨q, rfl, Or.inl rfl, le_refl _, by simp⟩
  | cons p l ih =>
    intro q
    simp only [List.foldl_cons]
    by_cases h : q.mtime < p.mtime
    · obtain ⟨f, hf, hmem, hle, hall⟩ := ih p
      refine ⟨f, ?_, ?_, le_trans (le_of_lt h) hle, ?_⟩
      · rw [show pick (some q) p = some p from by simp [pick, h]]
        exact hf
      · rcases hmem with h1 | h1
        · exact Or.inr (h1 ▸ List.mem_cons_self p l)
        · exact Or.inr (List.mem_cons_of_mem p h1)
      · intro g hg
        rcases List.mem_cons.mp hg with h1 | h1
        · exact h1 ▸ hle
        · exact hall g h1
    · obtain ⟨f, hf, hmem, hle, hall⟩ := ih q
      refine ⟨f, ?_, ?_, hle, ?_⟩
      · rw [show pick (some q) p = some q from by simp [pick, h]]
        exact hf
      · rcases hmem with h1 | h1
        · exact Or.inl h1
        · exact Or.inr (List.mem_cons_of_mem p h1)
      · intro g hg
        rcases List.mem_cons.mp hg with h1 | h1
        · exact h1 ▸ le_trans (le_of_not_lt h) hle
        · exact hall g h1

/-- The `pick` fold over a nonempty list selects a member whose `st_mtime`
dominates the list. -/
theorem foldl_pick_none (l : List Candidate) (hne : l ≠ []) :
    ∃ f, l.foldl pick none = some f ∧ f ∈ l ∧ ∀ g ∈ l, g.mtime ≤ f.mtime := by
  cases l with
  | nil => exact absurd rfl hne
  | cons p l =>
    simp only [List.foldl_cons]
    obtain ⟨f, hf, hmem, hle, hall⟩ := foldl_pick_some l p
    refine ⟨f, by rw [show pick none p = some p from rfl]; exact hf, ?_, ?_⟩
    · rcases hmem with h1 | h1
      · exact h1 ▸ List.mem_cons_self p l
      · exact List.mem_cons_of_mem p h1
    · intro g hg
      rcases List.mem_cons.mp hg with h1 | h1
      · exact h1 ▸ hle
      · exact hall g h1

/-- Unpacking membership in `relevantCands`. -/
theorem mem_relevantCands {cs : List Candidate} {b : String} {p : Candidate}
    (h : p ∈ relevantCands cs b) :
    p ∈ cs ∧ 4 ≤ (pySplit p.name "__").length ∧ candBrand p = b := by
  obtain ⟨h1, h2⟩ := List.mem_filter.mp h
  rw [Bool.and_eq_true, decide_eq_true_eq, beq_iff_eq] at h2
  exact ⟨h1, h2.1, h2.2⟩

/-- Packing membership in `relevantCands`. -/
theorem mem_relevantCands_of {cs : List Candidate} {b : String} {p : Candidate}
    (hp : p ∈ cs) (h4 : 4 ≤ (pySplit p.name "__").length)
    (hb : candBrand p = b) : p ∈ relevantCands cs b := by
  refine List.mem_filter.mpr ⟨hp, ?_⟩
  rw [Bool.and_eq_true, decide_eq_true_eq, beq_iff_eq]
  exact ⟨h4, hb⟩

/-- A selected file is a relevant candidate of its brand and dominates the
brand's candidates in `st_mtime`. -/
theorem latest_by_brand_some {cs : List Candidate} {b : String} {f : Candidate}
    (h : latest_by_brand cs b = some f) :
    f ∈ relevantCands cs b ∧ ∀ g ∈ relevantCands cs b, g.mtime ≤ f.mtime := by
  rw [latest_by_brand, foldl_latestStep] at h
  cases hrel : relevantCands cs b with
  | nil => rw [hrel] at h; cases h
  | cons p l =>
    rw [hrel] at h
    obtain ⟨f', hf', hmem, hall⟩ := foldl_pick_none (p :: l) (by simp)
    rw [hf'] at h
    cases h
    exact ⟨hmem, hall⟩

/-! ## Claim theorems -/

/-- C1: every period produced by the period calculator (from any reference
date) spans 14 days inclusive (`end - start = 13`), and its predecessor tiles
the calendar with zero gap and zero overlap:
`last_biweekly_period(p).end = p.start - 1`. -/
theorem c1_period_tiling (p : BiWeeklyPeriod) (hp : ProducedPeriod p) :
    p.end_ - p.start = 13 ∧ (last_biweekly_period p).end_ = p.start - 1 := by
  induction hp with
  | current today =>
      simp only [current_biweekly_period, last_biweekly_period]
      omega
  | prev q _ _ =>
      simp only [last_biweekly_period]
      omega

/-- Witness for C1 at the concrete reference date with ordinal 738961
(2024-03-16, a Saturday). -/
theorem c1_period_tiling_witness :
    (current_biweekly_period 738961).end_ - (current_biweekly_period 738961).start = 13 ∧
    (last_biweekly_period (current_biweekly_period 738961)).end_ =
      (current_biweekly_period 738961).start - 1 :=
  c1_period_tiling (current_biweekly_period 738961) (ProducedPeriod.current 738961)

/-- C2: for every date `d`, `most_recent_saturday d ≤ d`, the result falls on
a Saturday (weekday 5), and when `d` is itself a Saturday the result is `d`. -/
theorem c2_most_recent_saturday (d : ℤ) :
    most_recent_saturday d ≤ d ∧
    pyWeekday (most_recent_saturday d) = 5 ∧
    (pyWeekday d = 5 → most_recent_saturday d = d) := by
  unfold most_recent_saturday pyWeekday
  omega

/-- Witness for C2 at ordinal 738961 (2024-03-16, a Saturday):
the inner implication is discharged concretely. -/
theorem c2_most_recent_saturday_witness :
    most_recent_saturday 738961 ≤ 738961 ∧
    pyWeekday (most_recent_saturday 738961) = 5 ∧
    most_recent_saturday 738961 = 738961 :=
  ⟨(c2_most_recent_saturday 738961).1, (c2_most_recent_saturday 738961).2.1,
    (c2_most_recent_saturday 738961).2.2 (by decide)⟩

/-- C3: `safe_div` is total by construction and yields the defined value `0`
on a zero denominator; on a nonzero denominator it is plain division. -/
theorem c3_safe_div (n d : ℚ) :
    safe_div n 0 = 0 ∧ (d ≠ 0 → safe_div n d = n / d) := by
  constructor
  · simp [safe_div, seriesReplaceZeroNA]
  · intro hd
    simp [safe_div, seriesReplaceZeroNA, hd]

/-- Witness for C3 at `n = 3`, `d = 2`. -/
theorem c3_safe_div_witness :
    safe_div 3 0 = 0 ∧ safe_div 3 2 = 3 / 2 :=
  ⟨(c3_safe_div 3 2).1, (c3_safe_div 3 2).2 (by decide)⟩

/-- C4: on every output row, `true_up_cases ≥ 0`, `true_down_cases ≤ 0`, and
the two sum back to `true_difference_cases` (non-overlapping sign split). -/
theorem c4_sign_split (l : List RawRow) (m : MetricsRow)
    (hm : m ∈ compute_metrics l) :
    0 ≤ m.true_up_cases ∧ m.true_down_cases ≤ 0 ∧
    m.true_up_cases + m.true_down_cases = m.true_difference_cases := by
  obtain ⟨r, _, rfl⟩ := List.mem_map.mp hm
  refine ⟨le_max_right _ _, min_le_right _ _, ?_⟩
  simp only [computeRow]
  rcases le_total (RawRow.brand_cases r -
      RawRow.category_cases r * safe_div (RawRow.brand_cases_lp r)
        (RawRow.category_cases_lp r)) 0 with h | h
  · rw [max_eq_right h, min_eq_left h, zero_add]
  · rw [max_eq_left h, min_eq_right h, add_zero]

/-- Witness for C4 on the Scenario B row. -/
theorem c4_sign_split_witness :
    0 ≤ (computeRow scenarioRow).true_up_cases ∧
    (computeRow scenarioRow).true_down_cases ≤ 0 ∧
    (computeRow scenarioRow).true_up_cases + (computeRow scenarioRow).true_down_cases =
      (computeRow scenarioRow).true_difference_cases :=
  c4_sign_split [scenarioRow] (computeRow scenarioRow) (by
    simp [compute_metrics])

/-- C5: on the Scenario B row (`brand_cases=120, category_cases=400,
brand_cases_lp=100, category_cases_lp=500`), `compute_metrics` yields
`share_of_category = 0.30`, `share_of_category_lp = 0.20`,
`expected_cases_if_maintained_share = 80`, `true_difference_cases = 40`,
`true_up_cases = 40`, `true_down_cases = 0`. -/
theorem c5_scenario_b :
    (compute_metrics [scenarioRow]).map (fun m =>
      (m.share_of_category, m.share_of_category_lp,
        m.expected_cases_if_maintained_share, m.true_difference_cases,
        m.true_up_cases, m.true_down_cases)) =
    [((3 : ℚ) / 10, (1 : ℚ) / 5, 80, 40, 40, 0)] := by
  norm_num [compute_metrics, computeRow, scenarioRow, mkRow, safe_div,
    seriesReplaceZeroNA]

/-- C9: `compute_metrics` drops no row and only adds derived columns — the
output projected back to the original columns is exactly the input, in order
— and every output row has `is_current_period = true` and
`is_last_period = false`. -/
theorem c9_frame (l : List RawRow) :
    (compute_metrics l).map MetricsRow.orig = l ∧
    ∀ m ∈ compute_metrics l,
      m.is_current_period = true ∧ m.is_last_period = false := by
  constructor
  · simp only [compute_metrics, List.map_map]
    have h : (MetricsRow.orig ∘ computeRow) = id := funext fun _ => rfl
    rw [h, List.map_id]
  · intro m hm
    obtain ⟨r, _, rfl⟩ := List.mem_map.mp hm
    exact ⟨rfl, rfl⟩

/-- Witness for C9 on a one-row table (the inner membership hypothesis is
discharged concretely). -/
theorem c9_frame_witness :
    (compute_metrics [scenarioRow]).map MetricsRow.orig = [scenarioRow] ∧
    ((computeRow scenarioRow).is_current_period = true ∧
      (computeRow scenarioRow).is_last_period = false) :=
  ⟨(c9_frame [scenarioRow]).1,
    (c9_frame [scenarioRow]).2 (computeRow scenarioRow) (by
      simp [compute_metrics])⟩

/-- C10: on every output row, `true_difference_cases + category_effect_cases
= delta_brand_cases` — the share-driven and category-driven components sum
exactly to the total brand-volume change (the counterfactual
`expected_cases_if_maintained_share` cancels, so this holds also when a
`safe_div` denominator was zero). -/
theorem c10_decomposition (l : List RawRow) (m : MetricsRow)
    (hm : m ∈ compute_metrics l) :
    m.true_difference_cases + m.category_effect_cases = m.delta_brand_cases := by
  obtain ⟨r, _, rfl⟩ := List.mem_map.mp hm
  simp only [computeRow]
  ring

/-- Witness for C10 on the Scenario B row. -/
theorem c10_decomposition_witness :
    (computeRow scenarioRow).true_difference_cases +
      (computeRow scenarioRow).category_effect_cases =
    (computeRow scenarioRow).delta_brand_cases :=
  c10_decomposition [scenarioRow] (computeRow scenarioRow) (by
    simp [compute_metrics])

/-- C6 (amended): normalization derives `period_end` by splitting the period
label on `"_to_"` and taking the second component, and the pipeline fails —
producing no output — whenever a snapshot whose period label lacks the
separator contributes at least one row; the failure message reports the
number of affected rows rather than naming the offending input.  (The
counterexample shows the original claim's "naming the offending input" part
is false, and that a zero-row snapshot with a bad label raises no error.) -/
theorem c6_period_label (α : Type) (files : List (String × List α)) :
    (∀ f ∈ files, ∀ b lab, parseStemBP f.1 = Except.ok (b, lab) →
      inferPeriodEnd lab = none → f.2 ≠ [] →
      ∃ e, load_raw_snapshots files = Except.error e) ∧
    (∀ lab, inferPeriodEnd lab = (pySplit lab "_to_")[1]?) := by
  constructor
  · intro f hf b lab hparse hinfer hne
    obtain ⟨a, ha⟩ := List.exists_mem_of_ne_nil f.2 hne
    have hfe : files.isEmpty = false := by
      cases files with
      | nil => simp at hf
      | cons g rest => rfl
    cases hlf : loadFrames files with
    | error e =>
      refine ⟨e, ?_⟩
      simp only [load_raw_snapshots, hfe, Bool.false_eq_true, if_false]
      rw [hlf]
    | ok raw =>
      have hmem := loadFrames_ok_mem files raw hlf f hf b lab hparse a ha
      rw [hinfer] at hmem
      have hfilter : ({ payload := a, brand := b, period_label := lab,
                        period_end := none } : NormRow α) ∈
            (raw.filter (fun r => r.period_end.isNone)) :=
        List.mem_filter.mpr ⟨hmem, rfl⟩
      have hlen : (raw.filter fun r => r.period_end.isNone).length ≠ 0 := by
        have := List.length_pos.mpr (List.ne_nil_of_mem hfilter)
        omega
      refine ⟨missingMsg (raw.filter fun r => r.period_end.isNone).length, ?_⟩
      simp only [load_raw_snapshots, hfe, Bool.false_eq_true, if_false]
      rw [hlf]
      show (if (raw.filter (fun r => r.period_end.isNone)).length ≠ 0 then
          Except.error (missingMsg (raw.filter (fun r => r.period_end.isNone)).length)
        else Except.ok raw) =
        Except.error (missingMsg (raw.filter (fun r => r.period_end.isNone)).length)
      rw [if_pos hlen]
  · intro lab
    simp only [inferPeriodEnd]
    cases h : pySplit lab "_to_" with
    | nil => simp
    | cons x t =>
      cases t with
      | nil => simp
      | cons y t2 => simp

set_option maxRecDepth 40000 in
/-- Counterexample to C6 as stated: the missing-`period_end` failure message
is the same for two different offending snapshots (so it names neither the
offending file nor its label), and a snapshot with a separator-less period
label but zero data rows produces output with no error at all. -/
theorem c6_counterexample :
    load_raw_snapshots [badFile] = Except.error (missingMsg 1) ∧
    load_raw_snapshots [badFile2] = Except.error (missingMsg 1) ∧
    pyContains "brandx" (missingMsg 1) = false ∧
    pyContains "badlabel" (missingMsg 1) = false ∧
    load_raw_snapshots [emptyBadFile] = Except.ok [] := by
  decide

/-- Witness for C6 (amended) on the concrete bad-label snapshot, plus the
period-end derivation evaluated on the Scenario A label. -/
theorem c6_period_label_witness :
    (∃ e, load_raw_snapshots [badFile] = Except.error e) ∧
    inferPeriodEnd "2024-03-03_to_2024-03-16" = some "2024-03-16" :=
  ⟨(c6_period_label Unit [badFile]).1 badFile (List.mem_cons_self badFile [])
      "brandx" "badlabel" (by decide) (by decide) (by decide),
    by
      rw [(c6_period_label Unit []).2 "2024-03-03_to_2024-03-16"]
      decide⟩

/-- C7: in the default latest-per-brand mode, for each brand that has a
well-formed candidate, the selection keeps exactly one file; that file is a
candidate of the brand whose recency timestamp dominates every candidate of
the brand, and every other candidate of the brand — in particular every
strictly older one — is discarded: it is selected under no brand at all. -/
theorem c7_latest_per_brand (cs : List Candidate) (b : String) (p : Candidate)
    (hp : p ∈ cs) (h4 : 4 ≤ (pySplit p.name "__").length)
    (hb : candBrand p = b) :
    ∃ f, latest_by_brand cs b = some f ∧ f ∈ cs ∧ candBrand f = b ∧
      (∀ g ∈ cs, 4 ≤ (pySplit g.name "__").length → candBrand g = b →
        g.mtime ≤ f.mtime) ∧
      (∀ g ∈ cs, 4 ≤ (pySplit g.name "__").length → candBrand g = b → g ≠ f →
        ∀ b', latest_by_brand cs b' ≠ some g) := by
  have hrelne : relevantCands cs b ≠ [] :=
    List.ne_nil_of_mem (mem_relevantCands_of hp h4 hb)
  have hfold : latest_by_brand cs b = (relevantCands cs b).foldl pick none := by
    rw [latest_by_brand, foldl_latestStep]
  obtain ⟨f, hf, hfmem, hfall⟩ := foldl_pick_none (relevantCands cs b) hrelne
  have hsome : latest_by_brand cs b = some f := by rw [hfold, hf]
  obtain ⟨hfcs, _, hfb⟩ := mem_relevantCands hfmem
  refine ⟨f, hsome, hfcs, hfb, ?_, ?_⟩
  · intro g hg hg4 hgb
    exact hfall g (mem_relevantCands_of hg hg4 hgb)
  · intro g _ _ hgb hgf b' hsel
    obtain ⟨hgrel, _⟩ := latest_by_brand_some hsel
    obtain ⟨_, _, hgb'⟩ := mem_relevantCands hgrel
    have hbb : b' = b := by rw [← hgb', hgb]
    subst hbb
    rw [hsome] at hsel
    cases hsel
    exact hgf rfl

/-- Witness for C7 on the Scenario D pair: two captures of `brandx` for the
same period with recency timestamps 100 and 200. -/
theorem c7_latest_per_brand_witness :
    ∃ f, latest_by_brand [candOld, candNew] "brandx" = some f ∧
      f ∈ [candOld, candNew] ∧ candBrand f = "brandx" ∧
      (∀ g ∈ [candOld, candNew], 4 ≤ (pySplit g.name "__").length →
        candBrand g = "brandx" → g.mtime ≤ f.mtime) ∧
      (∀ g ∈ [candOld, candNew], 4 ≤ (pySplit g.name "__").length →
        candBrand g = "brandx" → g ≠ f →
        ∀ b', latest_by_brand [candOld, candNew] b' ≠ some g) :=
  c7_latest_per_brand [candOld, candNew] "brandx" candOld
    (List.mem_cons_self candOld [candNew]) (by decide) (by decide)

/-- C8 (amended): every output row's `unique_key` is the pipe-delimited
concatenation of `account_id`, `brand` and `period_end`, and — provided the
`account_id` and `brand` of the rows involved do not themselves contain the
pipe character — two output rows have equal `unique_key` exactly when their
`(account_id, brand, period_end)` triples are equal.  (The counterexample
shows injectivity fails without the pipe-free proviso.) -/
theorem c8_unique_key (l : List RawRow) (m₁ m₂ : MetricsRow)
    (h₁ : m₁ ∈ compute_metrics l) (h₂ : m₂ ∈ compute_metrics l)
    (ha₁ : pipeFree m₁.orig.account_id) (hb₁ : pipeFree m₁.orig.brand)
    (ha₂ : pipeFree m₂.orig.account_id) (hb₂ : pipeFree m₂.orig.brand) :
    m₁.unique_key =
      m₁.orig.account_id ++ "|" ++ m₁.orig.brand ++ "|" ++ m₁.orig.period_end ∧
    (m₁.unique_key = m₂.unique_key ↔
      (m₁.orig.account_id = m₂.orig.account_id ∧
        m₁.orig.brand = m₂.orig.brand ∧
        m₁.orig.period_end = m₂.orig.period_end)) := by
  obtain ⟨r₁, _, rfl⟩ := List.mem_map.mp h₁
  obtain ⟨r₂, _, rfl⟩ := List.mem_map.mp h₂
  refine ⟨rfl, ?_⟩
  show r₁.account_id ++ "|" ++ r₁.brand ++ "|" ++ r₁.period_end =
      r₂.account_id ++ "|" ++ r₂.brand ++ "|" ++ r₂.period_end ↔
    (r₁.account_id = r₂.account_id ∧ r₁.brand = r₂.brand ∧
      r₁.period_end = r₂.period_end)
  constructor
  · intro h
    have hd := congrArg String.data h
    rw [unique_key_data, unique_key_data] at hd
    obtain ⟨e1, hrest⟩ := sep_cons_append_inj _ _ _ _ ha₁ ha₂ hd
    obtain ⟨e2, e3⟩ := sep_cons_append_inj _ _ _ _ hb₁ hb₂ hrest
    exact ⟨String.ext e1, String.ext e2, String.ext e3⟩
  · rintro ⟨e1, e2, e3⟩
    rw [e1, e2, e3]

/-- Counterexample to C8 as stated: within one output table, two rows with
different `(account_id, brand, period_end)` triples — the delimiter occurring
inside a component — share the same `unique_key`. -/
theorem c8_counterexample :
    ((compute_metrics [pipeRow1, pipeRow2]).map fun m => m.unique_key) =
      ["a|b|c|d", "a|b|c|d"] ∧
    ¬(pipeRow1.account_id = pipeRow2.account_id ∧
      pipeRow1.brand = pipeRow2.brand ∧
      pipeRow1.period_end = pipeRow2.period_end) := by
  decide

/-- Witness for C8 (amended) on the Scenario B row compared with itself. -/
theorem c8_unique_key_witness :
    (computeRow scenarioRow).unique_key =
      (computeRow scenarioRow).orig.account_id ++ "|" ++
        (computeRow scenarioRow).orig.brand ++ "|" ++
        (computeRow scenarioRow).orig.period_end ∧
    ((computeRow scenarioRow).unique_key = (computeRow scenarioRow).unique_key ↔
      ((computeRow scenarioRow).orig.account_id =
          (computeRow scenarioRow).orig.account_id ∧
        (computeRow scenarioRow).orig.brand = (computeRow scenarioRow).orig.brand ∧
        (computeRow scenarioRow).orig.period_end =
          (computeRow scenarioRow).orig.period_end)) :=
  c8_unique_key [scenarioRow] (computeRow scenarioRow) (computeRow scenarioRow)
    (by simp [compute_metrics]) (by simp [compute_metrics])
    (by decide) (by decide) (by decide) (by decide)
